import Mathlib

/-!
A verification development for the GoFAT read-only FAT16/FAT32 filesystem.

The Go sources are shallowly embedded in Lean 4:

* Machine integers (uint8/uint16/uint32/int64) become Nat or Int; wrap-around
  is written explicitly as a remainder by 2 ^ 32 (or 2 ^ 16, 2 ^ 8) at the
  places where the Go code performs modular machine arithmetic.
* Byte buffers become List Nat (each element intended below 256).
* A Go (value, error) return pair becomes a product with an Option GoErr
  component, or an Except GoErr value when the value is unused on error.
* The io.ReadSeeker backing a filesystem is modelled as a pure map from a
  sector index to the bytes delivered by the corresponding seek+read, which
  is faithful for deterministic readers; the single-sector cache of the Go
  code is invisible under that assumption and is omitted.
* Functions that Go implements with unbounded loops take an explicit fuel
  argument and return an Option, with none meaning that the fuel ran out
  (the Go loop would still be running).
* panic is modelled by a dedicated constructor of GoOutcome.

Each section names the Go source function it is translated from.
-/

/-- Errors of the gofat package and of the Go standard library that the
package surfaces.  The wrap constructor models a checkpoint produced by
checkpoint.Wrap(prev, err): it keeps both the previous error and the
annotating error, exactly the information that errors.Is can observe.
checkpoint.From only decorates an error with caller information, which is
invisible to errors.Is, so it is modelled as the identity (see cpFrom). -/
inductive GoErr : Type where
  | eof
  | unexpectedEOF
  | errInvalidPath
  | errOpenFilesystem
  | errReadFilesystemFile
  | errReadFilesystemDir
  | errNotSupported
  | errInitFs (msg : String)
  | errFetchingSector (sectorNum : Nat)
  | errReadFat
  | errReadFile
  | errSeekFile
  | errReadDir
  | enotdir
  | einval
  | outOfRange
  | other (msg : String)
  | wrap (prev : GoErr) (err : GoErr)
deriving DecidableEq, Repr

/-- Model of checkpoint.Wrap(prev, err) for a non-nil prev: io.EOF is
passed through unchanged (the Go function special-cases it), every other
error is wrapped together with the annotation. -/
def GoErr.cpWrap (prev err : GoErr) : GoErr :=
  match prev with
  | .eof => .eof
  | p => .wrap p err

/-- Model of checkpoint.Wrap(prev, err) on an optional prev: a nil prev
yields nil. -/
def cpWrapO (prev : Option GoErr) (err : GoErr) : Option GoErr :=
  match prev with
  | none => none
  | some p => some (p.cpWrap err)

/-- Model of checkpoint.From: it only attaches caller information, which
errors.Is cannot observe, so the error identity is unchanged. -/
def GoErr.cpFrom (e : GoErr) : GoErr := e

/-!
The fatEntry type and its classification predicates, translated from the
fatEntry methods of the filesystem source (type fatEntry uint32).  A FAT
entry is modelled as a Nat; every predicate first masks the value with
0x0FFFFFFF exactly as the Go code does.
-/

/-- Translation of fatEntry.IsFree: the low 28 bits are zero. -/
def fatEntry.IsFree (e : Nat) : Bool :=
  decide (e &&& 0x0FFFFFFF = 0x00000000)

/-- Translation of fatEntry.IsReservedTemp: masked value 0x00000001. -/
def fatEntry.IsReservedTemp (e : Nat) : Bool :=
  decide (e &&& 0x0FFFFFFF = 0x00000001)

/-- Translation of fatEntry.IsNextCluster: masked value in
[0x00000002, 0x0FFFFFEF]. -/
def fatEntry.IsNextCluster (e : Nat) : Bool :=
  decide (0x00000002 ≤ e &&& 0x0FFFFFFF ∧ e &&& 0x0FFFFFFF ≤ 0x0FFFFFEF)

/-- Translation of fatEntry.IsReservedSometimes: masked value in
[0x0FFFFFF0, 0x0FFFFFF5]. -/
def fatEntry.IsReservedSometimes (e : Nat) : Bool :=
  decide (0x0FFFFFF0 ≤ e &&& 0x0FFFFFFF ∧ e &&& 0x0FFFFFFF ≤ 0x0FFFFFF5)

/-- Translation of fatEntry.IsReserved: masked value 0x0FFFFFF6. -/
def fatEntry.IsReserved (e : Nat) : Bool :=
  decide (e &&& 0x0FFFFFFF = 0x0FFFFFF6)

/-- Translation of fatEntry.IsBad: masked value 0x0FFFFFF7. -/
def fatEntry.IsBad (e : Nat) : Bool :=
  decide (e &&& 0x0FFFFFFF = 0x0FFFFFF7)

/-- Translation of fatEntry.IsEOF: masked value in [0x0FFFFFF8, 0x0FFFFFFF]. -/
def fatEntry.IsEOF (e : Nat) : Bool :=
  decide (0x0FFFFFF8 ≤ e &&& 0x0FFFFFFF ∧ e &&& 0x0FFFFFFF ≤ 0x0FFFFFFF)

/-- Translation of fatEntry.ReadAsNextCluster: entries that chain walking
follows like a data cluster. -/
def fatEntry.ReadAsNextCluster (e : Nat) : Bool :=
  fatEntry.IsNextCluster e || fatEntry.IsReservedSometimes e ||
    fatEntry.IsReserved e || fatEntry.IsBad e

/-- Translation of fatEntry.ReadAsEOF: entries that chain walking treats as
end of chain. -/
def fatEntry.ReadAsEOF (e : Nat) : Bool :=
  fatEntry.IsEOF e || fatEntry.IsReservedTemp e

/-- Bit masking with the 28-bit all-ones constant is reduction modulo 2^28. -/
theorem fatEntry.mask_eq_mod (e : Nat) : e &&& 0x0FFFFFFF = e % 0x10000000 := by
  have h : (0x0FFFFFFF : Nat) = 2 ^ 28 - 1 := by norm_num
  rw [h, Nat.and_pow_two_sub_one_eq_mod]

/-- An entry read as EOF is never read as a next cluster (helper used by the
cluster-chain lemmas). -/
theorem fatEntry.eof_not_next (e : Nat) (h : fatEntry.ReadAsEOF e = true) :
    fatEntry.ReadAsNextCluster e = false := by
  have hb : e % 0x10000000 < 0x10000000 := Nat.mod_lt _ (by norm_num)
  simp only [fatEntry.ReadAsNextCluster, fatEntry.ReadAsEOF,
    fatEntry.IsNextCluster, fatEntry.IsReservedSometimes, fatEntry.IsReserved,
    fatEntry.IsBad, fatEntry.IsEOF, fatEntry.IsReservedTemp,
    fatEntry.mask_eq_mod, Bool.or_eq_true, decide_eq_true_eq] at h ⊢
  simp only [Bool.or_eq_false_iff, decide_eq_false_iff_not]
  rcases h with h | h <;> omega

/-- C8: for every 32-bit fatEntry value, exactly one of the predicates
read-as-next-cluster (Next, ReservedSometimes, Reserved or Bad),
read-as-EOF (EOF or ReservedTemp) and is-free holds, so their XOR is true:
after masking the upper 4 bits the three classes partition the value space. -/
theorem fatEntry.classification_partition (e : Nat) :
    xor (fatEntry.ReadAsNextCluster e)
      (xor (fatEntry.ReadAsEOF e) (fatEntry.IsFree e)) = true := by
  have hb : e % 0x10000000 < 0x10000000 := Nat.mod_lt _ (by norm_num)
  simp only [fatEntry.ReadAsNextCluster, fatEntry.ReadAsEOF, fatEntry.IsFree,
    fatEntry.IsNextCluster, fatEntry.IsReservedSometimes, fatEntry.IsReserved,
    fatEntry.IsBad, fatEntry.IsEOF, fatEntry.IsReservedTemp,
    fatEntry.mask_eq_mod]
  generalize hm : e % 0x10000000 = m at hb ⊢
  by_cases h0 : m = 0 <;> by_cases h1 : m = 1 <;>
    by_cases h2 : 2 ≤ m ∧ m ≤ 0x0FFFFFEF <;>
    by_cases h3 : 0x0FFFFFF0 ≤ m ∧ m ≤ 0x0FFFFFF5 <;>
    by_cases h4 : m = 0x0FFFFFF6 <;> by_cases h5 : m = 0x0FFFFFF7 <;>
    by_cases h6 : 0x0FFFFFF8 ≤ m ∧ m ≤ 0x0FFFFFFF <;>
    simp [h0, h1, h2, h3, h4, h5, h6] <;> omega

/-!
The volume model, translated from the filesystem source: the FATType
constants, the Info structure, the BPB layout structures, the sector fetch
and the FAT-entry lookup getFatEntry.
-/

/-- The FAT type constants of the source (type FATType string). -/
inductive FATType : Type where
  | FAT12
  | FAT16
  | FAT32
deriving DecidableEq, Repr

/-- Translation of the Go structure FAT32SpecificData (model source file). -/
structure FAT32SpecificData : Type where
  FatSize : Nat
  ExtFlags : Nat
  FSVersion : Nat
  RootCluster : Nat
  FSInfo : Nat
  BkBootSector : Nat
  Reserved : List Nat
  BSDriveNumber : Nat
  BSReserved1 : Nat
  BSBootSignature : Nat
  BSVolumeID : Nat
  BSVolumeLabel : List Nat
  BSFileSystemType : List Nat
deriving DecidableEq, Repr

/-- Translation of the Go structure FAT16SpecificData (model source file). -/
structure FAT16SpecificData : Type where
  BSDriveNumber : Nat
  BSReserved1 : Nat
  BSBootSignature : Nat
  BSVolumeId : Nat
  BSVolumeLabel : List Nat
  BSFileSystemType : List Nat
deriving DecidableEq, Repr

/-- Translation of the Go structure Info: all information about the mounted
filesystem. -/
structure Info : Type where
  FSType : FATType
  FatCount : Nat
  FatSize : Nat
  SectorsPerCluster : Nat
  FirstDataSector : Nat
  TotalSectorCount : Nat
  ReservedSectorCount : Nat
  BytesPerSector : Nat
  Label : List Nat
  fat32Specific : FAT32SpecificData
  fat16Specific : FAT16SpecificData
  RootEntryCount : Nat
deriving DecidableEq, Repr

/-- The mounted filesystem: the geometry Info plus the backing byte source.
disk s models the bytes which the io.ReadSeeker delivers when fetch seeks to
sector s and reads one sector (the source assumes a deterministic reader, so
the single-sector cache of the Go code cannot be observed and is omitted). -/
structure Fs : Type where
  info : Info
  disk : Nat → Except GoErr (List Nat)

/-- A buffer normalized to exactly n bytes: Go's fetch allocates a zeroed
buffer of one sector and reader.Read fills a prefix of it (the returned
count is ignored by the source). -/
def padToLength (n : Nat) (buf : List Nat) : List Nat :=
  buf.take n ++ List.replicate (n - buf.length) 0

/-- Translation of Fs.fetch: deliver one sector, wrapping a reader error
with the fetch-failed error annotated by the sector index. -/
def Fs.fetch (f : Fs) (sectorNum : Nat) : Except GoErr (List Nat) :=
  match f.disk sectorNum with
  | .error e => .error (e.cpWrap (.errFetchingSector sectorNum))
  | .ok buf => .ok (padToLength f.info.BytesPerSector buf)

/-- Little-endian 16-bit read at offset off, as binary.LittleEndian.Uint16
of buf[off : off+2].  Go panics when the slice bounds exceed the buffer; the
model reads missing bytes as 0 (the offsets stay in bounds whenever the
sector size is a multiple of the entry width, as on every real volume). -/
def leUint16 (buf : List Nat) (off : Nat) : Nat :=
  buf.getD off 0 + 256 * buf.getD (off + 1) 0

/-- Little-endian 32-bit read at offset off, as binary.LittleEndian.Uint32
of buf[off : off+4]; out-of-bounds bytes read as 0 as in leUint16. -/
def leUint32 (buf : List Nat) (off : Nat) : Nat :=
  buf.getD off 0 + 256 * buf.getD (off + 1) 0 +
    65536 * buf.getD (off + 2) 0 + 16777216 * buf.getD (off + 3) 0

/-- Translation of Fs.getFatEntry: the FAT-chain query.  All the uint32
arithmetic of the Go code carries an explicit remainder by 2 ^ 32. -/
def Fs.getFatEntry (f : Fs) (cluster : Nat) : Except GoErr Nat :=
  match f.info.FSType with
  | .FAT12 => .error (GoErr.errNotSupported.cpFrom)
  | t =>
    let fatOffset : Nat :=
      match t with
      | .FAT16 => cluster * 2 % 4294967296
      | _ => cluster * 4 % 4294967296
    let fatSectorNumber :=
      (f.info.ReservedSectorCount + fatOffset / f.info.BytesPerSector) % 4294967296
    let fatEntryOffset := fatOffset % f.info.BytesPerSector
    match f.fetch fatSectorNumber with
    | .error e => .error (e.cpWrap .errReadFat)
    | .ok buf =>
      match t with
      | .FAT16 =>
        let fat16ClusterEntryValue := leUint16 buf fatEntryOffset
        if 0xFFF0 ≤ fat16ClusterEntryValue ∧ fat16ClusterEntryValue ≤ 0xFFFF then
          .ok (fat16ClusterEntryValue ||| (0x0FFFF000 &&& 0x0FFFFFFF))
        else
          .ok fat16ClusterEntryValue
      | _ => .ok (leUint32 buf fatEntryOffset &&& 0x0FFFFFFF)

/-- Width in bytes of one FAT entry, following the words of the
specification (entry_size = 2 for FAT16, 4 for FAT32; the chain walk is
never invoked for FAT12). -/
def entrySizeSpec : FATType → Nat
  | .FAT16 => 2
  | .FAT32 => 4
  | .FAT12 => 0

/-- The value the specification prescribes for a FAT entry read: the
little-endian entry at the given in-sector offset, masked with 0x0FFFFFFF
for FAT32, and for FAT16 widened by OR with 0x0FFFF000 when the raw value
lies in [0xFFF0, 0xFFFF].  This definition follows the words of the
specification and is compared against the source translation getFatEntry. -/
def getFatEntrySpec (t : FATType) (buf : List Nat) (inSectorOffset : Nat) : Nat :=
  match t with
  | .FAT16 =>
    let raw := leUint16 buf inSectorOffset
    if 0xFFF0 ≤ raw ∧ raw ≤ 0xFFFF then raw ||| 0x0FFFF000 else raw
  | _ => leUint32 buf inSectorOffset &&& 0x0FFFFFFF

/-- C3: on a mounted FAT16 or FAT32 volume, getFatEntry reads the
little-endian entry of width entry_size (2 for FAT16, 4 for FAT32) at
sector reserved_sector_count + (c * entry_size) / bytes_per_sector and
in-sector offset (c * entry_size) mod bytes_per_sector, returning for FAT32
the value masked with 0x0FFFFFFF and for FAT16 the raw 16-bit value with
raw values in [0xFFF0, 0xFFFF] widened by OR with 0x0FFFF000.  The bounds
hypotheses state that the uint32 sector arithmetic does not wrap, which
holds for every 28-bit cluster value on a real volume. -/
theorem Fs.getFatEntry_spec (f : Fs) (c : Nat) (buf : List Nat)
    (ht : f.info.FSType ≠ FATType.FAT12)
    (hc : c * 4 < 4294967296)
    (hsec : f.info.ReservedSectorCount +
        c * entrySizeSpec f.info.FSType / f.info.BytesPerSector < 4294967296)
    (hfetch : f.fetch (f.info.ReservedSectorCount +
        c * entrySizeSpec f.info.FSType / f.info.BytesPerSector) = .ok buf) :
    f.getFatEntry c = .ok (getFatEntrySpec f.info.FSType buf
        (c * entrySizeSpec f.info.FSType % f.info.BytesPerSector)) := by
  rcases hT : f.info.FSType with _ | _ | _
  · exact absurd hT ht
  · have h2 : c * 2 < 4294967296 := by omega
    simp only [hT, entrySizeSpec] at hsec hfetch
    have hmask : (268431360 &&& 268435455 : Nat) = 268431360 := by decide
    simp only [Fs.getFatEntry, hT, entrySizeSpec, Nat.mod_eq_of_lt h2,
      Nat.mod_eq_of_lt hsec, hfetch, getFatEntrySpec, hmask]
    split <;> rfl
  · simp only [hT, entrySizeSpec] at hsec hfetch
    simp only [Fs.getFatEntry, hT, entrySizeSpec, Nat.mod_eq_of_lt hc,
      Nat.mod_eq_of_lt hsec, hfetch, getFatEntrySpec]

/-- A small concrete FAT16 volume used to instantiate the theorems: one
sector per cluster, four bytes per sector, one reserved sector; the FAT
sector (sector 2 holds the entry of cluster 2) marks cluster 2 as EOF
(raw 0xFFF8); every other sector holds the bytes 10, 11, 12, 13. -/
def fsW : Fs where
  info :=
    { FSType := .FAT16
      FatCount := 1
      FatSize := 1
      SectorsPerCluster := 1
      FirstDataSector := 3
      TotalSectorCount := 8
      ReservedSectorCount := 1
      BytesPerSector := 4
      Label := []
      fat32Specific := ⟨0, 0, 0, 0, 0, 0, [], 0, 0, 0, 0, [], []⟩
      fat16Specific := ⟨0, 0, 0, 0, [], []⟩
      RootEntryCount := 0 }
  disk := fun s => if s = 2 then .ok [0xF8, 0xFF, 0, 0] else .ok [10, 11, 12, 13]

/-- Witness for C3: the theorem applied to the concrete volume fsW at
cluster 2, whose FAT entry sits in sector 1 + 4 / 4 = 2 at offset 0 and
holds the raw value 0xFFF8. -/
theorem Fs.getFatEntry_spec_witness :
    fsW.getFatEntry 2 = .ok (getFatEntrySpec fsW.info.FSType [0xF8, 0xFF, 0, 0]
      (2 * entrySizeSpec fsW.info.FSType % fsW.info.BytesPerSector)) :=
  Fs.getFatEntry_spec fsW 2 [0xF8, 0xFF, 0, 0] (by decide) (by decide)
    (by decide) (by rfl)

/-!
Translation of Fs.readFileAt, the range-read service over a cluster chain.
The two unbounded Go loops become fuel-indexed recursions; the finalize
closure becomes a standalone function of the three size parameters.
-/

/-- Translation of the finalize closure of Fs.readFileAt: slice the
accumulated bytes to the readSize, the fileSize or leave them as they are,
turning an over-long request into io.EOF and wrapping every error with the
file-read error.  Where Go would panic on slicing with a negative bound the
model clamps with Int.toNat; no theorem below reaches that state. -/
def readFileAtFinalize (fileSize offset readSize : Int) (result : List Nat)
    (err : Option GoErr) : List Nat × Option GoErr :=
  let fileSize := if fileSize < 0 then (result.length : Int) + offset else fileSize
  let adjusted :=
    if err = none ∧ readSize > fileSize - offset then
      ((some GoErr.eof : Option GoErr), fileSize - offset)
    else (err, readSize)
  let err1 := adjusted.1
  let readSize1 := adjusted.2
  let err2 :=
    if err1 = none ∧ (result.length : Int) < fileSize - offset ∧
        (result.length : Int) < readSize1 then
      some GoErr.unexpectedEOF
    else err1
  if readSize1 > 0 ∧ (result.length : Int) > readSize1 then
    (result.take readSize1.toNat, cpWrapO err2 .errReadFilesystemFile)
  else if (result.length : Int) > fileSize then
    (result.take fileSize.toNat, cpWrapO err2 .errReadFilesystemFile)
  else (result, cpWrapO err2 .errReadFilesystemFile)

/-- Translation of the first loop of Fs.readFileAt ("find the cluster to
start"): walk the chain until the current cluster covers the byte offset.
Sum.inl is an early return with a finalized result (the data is still
empty there), Sum.inr carries the loop state (clusterNumber, currentCluster)
at the break. -/
def Fs.readFileAtSkipLoop (f : Fs) (fileSize offset readSize : Int) :
    Nat → Nat → Nat → Option ((List Nat × Option GoErr) ⊕ (Nat × Nat))
  | 0, _, _ => none
  | fuel + 1, clusterNumber, currentCluster =>
    if (clusterNumber : Int) * (f.info.SectorsPerCluster : Int) *
          (f.info.BytesPerSector : Int) ≤ offset ∧
        ((clusterNumber : Int) + 1) * (f.info.SectorsPerCluster : Int) *
          (f.info.BytesPerSector : Int) ≥ offset then
      some (Sum.inr (clusterNumber, currentCluster))
    else
      match f.getFatEntry currentCluster with
      | .error e =>
        some (Sum.inl (readFileAtFinalize fileSize offset readSize [] (some e)))
      | .ok nextCluster =>
        if fatEntry.ReadAsNextCluster nextCluster then
          f.readFileAtSkipLoop fileSize offset readSize fuel
            (clusterNumber + 1) nextCluster
        else
          some (Sum.inl (readFileAtFinalize fileSize offset readSize [] none))

/-- Translation of the inner sector loop of Fs.readFileAt: read count
sectors of the cluster starting at index i, appending one sector of bytes
per step; while the data is still empty the head of the sector is trimmed
by offsetRest.  The binary.Read step of the Go code cannot fail because
fetch always yields exactly one sector of bytes.  Sum.inl is an early
return caused by a fetch error. -/
def Fs.readFileAtSectors (f : Fs) (fileSize offset readSize : Int)
    (firstSectorOfCluster : Nat) (offsetRest : Int) :
    Nat → Nat → List Nat → (List Nat × Option GoErr) ⊕ List Nat
  | 0, _, data => Sum.inr data
  | count + 1, i, data =>
    match f.fetch ((firstSectorOfCluster + i) % 4294967296) with
    | .error e =>
      Sum.inl (readFileAtFinalize fileSize offset readSize data (some e))
    | .ok newData =>
      f.readFileAtSectors fileSize offset readSize firstSectorOfCluster
        offsetRest count (i + 1)
        (if data = [] then data ++ newData.drop offsetRest.toNat
         else data ++ newData)

/-- Translation of the main cluster loop of Fs.readFileAt: read the sectors
of the current cluster (skipping the first skip sectors), stop when the
requested size is covered, otherwise follow the FAT chain; a chain end
before fileSize bytes finalizes with io.ErrUnexpectedEOF.  The cluster
arithmetic is the uint32 arithmetic of the Go code. -/
def Fs.readFileAtClusters (f : Fs) (fileSize offset readSize : Int) :
    Nat → Nat → Nat → Nat → Int → List Nat → Option (List Nat × Option GoErr)
  | 0, _, _, _, _, _ => none
  | fuel + 1, clusterNumber, currentCluster, skip, offsetRest, data =>
    match f.readFileAtSectors fileSize offset readSize
        (((currentCluster + 4294967296 - 2) % 4294967296 *
            f.info.SectorsPerCluster + f.info.FirstDataSector) % 4294967296)
        offsetRest (f.info.SectorsPerCluster - skip) skip data with
    | Sum.inl done => some done
    | Sum.inr data =>
      if readSize > 0 ∧
          ((clusterNumber : Int) + 1) * (f.info.SectorsPerCluster : Int) *
            (f.info.BytesPerSector : Int) ≥ offset + readSize then
        some (readFileAtFinalize fileSize offset readSize data none)
      else
        match f.getFatEntry currentCluster with
        | .error e =>
          some (readFileAtFinalize fileSize offset readSize data (some e))
        | .ok nextCluster =>
          if fatEntry.ReadAsNextCluster nextCluster then
            f.readFileAtClusters fileSize offset readSize fuel
              (clusterNumber + 1) nextCluster 0 offsetRest data
          else
            if (data.length : Int) < fileSize - offset then
              some (readFileAtFinalize fileSize offset readSize data
                (some GoErr.unexpectedEOF))
            else
              some (readFileAtFinalize fileSize offset readSize data none)

/-- Translation of Fs.readFileAt: position on the cluster covering offset,
compute the sectors and bytes to skip inside it, then read the chain.
A result of none means the fuel ran out (the Go loop would not have
terminated yet). -/
def Fs.readFileAt (f : Fs) (cluster : Nat) (fileSize offset readSize : Int)
    (fuel1 fuel2 : Nat) : Option (List Nat × Option GoErr) :=
  match f.readFileAtSkipLoop fileSize offset readSize fuel1 0 cluster with
  | none => none
  | some (Sum.inl done) => some done
  | some (Sum.inr (clusterNumber, currentCluster)) =>
    let offsetRest : Int := offset - (clusterNumber : Int) *
      (f.info.SectorsPerCluster : Int) * (f.info.BytesPerSector : Int)
    let skip : Nat := (offsetRest / (f.info.BytesPerSector : Int)).toNat % 256
    f.readFileAtClusters fileSize offset readSize fuel2 clusterNumber
      currentCluster skip
      (offsetRest - (f.info.BytesPerSector : Int) * (skip : Int)) []

/-- A well-formed finite FAT chain: each cluster of the list maps to the
next one through getFatEntry with a read-as-next-cluster value, and the
last cluster maps to eofEntry. -/
def Fs.fatChainTo (f : Fs) (eofEntry : Nat) : List Nat → Prop
  | [] => False
  | [c] => f.getFatEntry c = .ok eofEntry
  | c :: c2 :: rest =>
    f.getFatEntry c = .ok c2 ∧ fatEntry.ReadAsNextCluster c2 = true ∧
      Fs.fatChainTo f eofEntry (c2 :: rest)

theorem padToLength_length (n : Nat) (buf : List Nat) :
    (padToLength n buf).length = n := by
  simp [padToLength]
  omega

theorem Fs.readFileAtSectors_ok (f : Fs) (fsz off rsz : Int) (fsc : Nat)
    (hdisk : ∀ s, ∃ buf, f.disk s = Except.ok buf) :
    ∀ (count i : Nat) (data : List Nat),
      ∃ R : List Nat,
        f.readFileAtSectors fsz off rsz fsc 0 count i data =
          Sum.inr (data ++ R) ∧
        R.length = count * f.info.BytesPerSector := by
  intro count
  induction count with
  | zero =>
    intro i data
    exact ⟨[], by simp [Fs.readFileAtSectors]⟩
  | succ n ih =>
    intro i data
    obtain ⟨buf, hbuf⟩ := hdisk ((fsc + i) % 4294967296)
    have hfetch : f.fetch ((fsc + i) % 4294967296) =
        .ok (padToLength f.info.BytesPerSector buf) := by
      simp [Fs.fetch, hbuf]
    obtain ⟨R, hR, hRlen⟩ :=
      ih (i + 1) (data ++ padToLength f.info.BytesPerSector buf)
    refine ⟨padToLength f.info.BytesPerSector buf ++ R, ?_, ?_⟩
    · simp only [Fs.readFileAtSectors, hfetch]
      have hif : (if data = [] then
            data ++ (padToLength f.info.BytesPerSector buf).drop (Int.toNat 0)
          else data ++ padToLength f.info.BytesPerSector buf) =
          data ++ padToLength f.info.BytesPerSector buf := by
        split <;> simp
      rw [hif, hR, List.append_assoc]
    · simp only [List.length_append, hRlen, padToLength_length, Nat.succ_mul]
      omega

theorem Fs.readFileAtClusters_chain (f : Fs) (fsz : Int) (e : Nat)
    (hdisk : ∀ s, ∃ buf, f.disk s = Except.ok buf)
    (he : fatEntry.ReadAsEOF e = true) :
    ∀ (cs : List Nat) (c : Nat) (fuel cn : Nat) (data : List Nat),
      f.fatChainTo e (c :: cs) → cs.length < fuel →
      ∃ R : List Nat,
        f.readFileAtClusters fsz 0 0 fuel cn c 0 0 data =
          some (readFileAtFinalize fsz 0 0 (data ++ R)
            (if ((data ++ R).length : Int) < fsz then some GoErr.unexpectedEOF
             else none)) ∧
        R.length = (cs.length + 1) *
          (f.info.SectorsPerCluster * f.info.BytesPerSector) := by
  intro cs
  induction cs with
  | nil =>
    intro c fuel cn data hchain hfuel
    obtain ⟨m, rfl⟩ : ∃ m, fuel = m + 1 := ⟨fuel - 1, by omega⟩
    have hch : f.getFatEntry c = .ok e := hchain
    obtain ⟨R, hR, hRlen⟩ := Fs.readFileAtSectors_ok f fsz 0 0
      (((c + 4294967296 - 2) % 4294967296 * f.info.SectorsPerCluster +
        f.info.FirstDataSector) % 4294967296) hdisk
      (f.info.SectorsPerCluster - 0) 0 data
    refine ⟨R, ?_, by simpa using hRlen⟩
    simp only [Fs.readFileAtClusters, hR, hch, fatEntry.eof_not_next e he]
    rw [if_neg (by simp)]
    simp
    split <;> rfl
  | cons c2 rest ih =>
    intro c fuel cn data hchain hfuel
    obtain ⟨m, rfl⟩ : ∃ m, fuel = m + 1 := ⟨fuel - 1, by omega⟩
    obtain ⟨hch, hnext, hchain2⟩ := hchain
    obtain ⟨R0, hR0, hR0len⟩ := Fs.readFileAtSectors_ok f fsz 0 0
      (((c + 4294967296 - 2) % 4294967296 * f.info.SectorsPerCluster +
        f.info.FirstDataSector) % 4294967296) hdisk
      (f.info.SectorsPerCluster - 0) 0 data
    obtain ⟨R1, hR1, hR1len⟩ := ih c2 m (cn + 1) (data ++ R0) hchain2
      (by simpa using Nat.lt_of_succ_lt_succ hfuel)
    refine ⟨R0 ++ R1, ?_, ?_⟩
    · simp only [Fs.readFileAtClusters, hR0, hch, hnext]
      rw [if_neg (by simp)]
      simp only [hnext, hR1, List.append_assoc, if_true]
    · simp only [List.length_append, hR0len, hR1len]
      simp only [Nat.sub_zero, List.length_cons]
      ring

theorem readFileAtFinalize_zeroOffset (fsz : Int) (hfs : 0 ≤ fsz) (R : List Nat) :
    readFileAtFinalize fsz 0 0 R
        (if (R.length : Int) < fsz then some GoErr.unexpectedEOF else none) =
      if (R.length : Int) < fsz then
        (R, some (GoErr.unexpectedEOF.cpWrap GoErr.errReadFilesystemFile))
      else (R.take fsz.toNat, none) := by
  have hneg : ¬ fsz < 0 := by omega
  have h1 : ¬ ((0 : Int) > fsz - 0) := by omega
  have h2 : ¬ ((0 : Int) > (0 : Int)) := by omega
  have h7 : ¬ ((R.length : Int) < (0 : Int)) := by omega
  by_cases h : (R.length : Int) < fsz
  · simp only [if_pos h]
    have h3 : ¬ ((R.length : Int) > fsz) := by omega
    simp [readFileAtFinalize, hneg, h1, h2, h3, h7, cpWrapO, GoErr.cpWrap]
  · simp only [if_neg h]
    have h4 : ¬ ((R.length : Int) < fsz - 0) := by omega
    by_cases h5 : (R.length : Int) > fsz
    · simp [readFileAtFinalize, hneg, h1, h2, h4, h5, h7, cpWrapO]
    · have h6 : fsz.toNat = R.length := by omega
      simp [readFileAtFinalize, hneg, h1, h2, h4, h5, h7, cpWrapO, h6,
        List.take_length]

/-- C1: with a non-negative declared file size, readFileAt called with that
file size, offset 0 and read size 0 over a well-formed finite chain
(cluster :: cs, closed by an EOF-class entry) returns exactly fileSize
bytes and no error when the chain covers at least fileSize bytes, and
returns all the bytes the chain provides together with the
unexpected-end-of-data error (wrapped in the file-read error) when the
chain ends earlier. -/
theorem Fs.readFileAt_fullRead (f : Fs) (cluster : Nat) (fileSize : Int)
    (cs : List Nat) (e : Nat)
    (hfs : 0 ≤ fileSize)
    (hdisk : ∀ s, ∃ buf, f.disk s = Except.ok buf)
    (hchain : f.fatChainTo e (cluster :: cs))
    (heof : fatEntry.ReadAsEOF e = true)
    (fuel1 fuel2 : Nat) (hf1 : 0 < fuel1) (hf2 : cs.length < fuel2) :
    ∃ D : List Nat,
      f.readFileAt cluster fileSize 0 0 fuel1 fuel2 =
        some (D,
          if fileSize ≤ (((cs.length + 1) *
              (f.info.SectorsPerCluster * f.info.BytesPerSector) : Nat) : Int)
          then none
          else some (GoErr.unexpectedEOF.cpWrap GoErr.errReadFilesystemFile)) ∧
      D.length = min fileSize.toNat
        ((cs.length + 1) * (f.info.SectorsPerCluster * f.info.BytesPerSector)) := by
  obtain ⟨m, rfl⟩ : ∃ m, fuel1 = m + 1 := ⟨fuel1 - 1, by omega⟩
  obtain ⟨R, hR, hRlen⟩ := Fs.readFileAtClusters_chain f fileSize e hdisk heof
    cs cluster fuel2 0 [] hchain hf2
  have hskip : f.readFileAtSkipLoop fileSize 0 0 (m + 1) 0 cluster =
      some (Sum.inr (0, cluster)) := by
    simp only [Fs.readFileAtSkipLoop]
    rw [if_pos]
    refine ⟨by simp, ?_⟩
    rw [ge_iff_le]
    positivity
  simp only [Fs.readFileAt, hskip]
  have hdiv : ((0 : Int) / (f.info.BytesPerSector : Int)) = 0 := by simp
  simp only [Nat.cast_zero, zero_mul, sub_zero, hdiv, Int.toNat_zero,
    Nat.zero_mod, mul_zero]
  simp only [List.nil_append] at hR
  rw [hR]
  rw [readFileAtFinalize_zeroOffset fileSize hfs R]
  by_cases hcase : (R.length : Int) < fileSize
  · rw [if_pos hcase]
    rw [← hRlen]
    rw [if_neg (by omega)]
    exact ⟨R, rfl, by omega⟩
  · rw [if_neg hcase]
    rw [← hRlen]
    rw [if_pos (by omega)]
    refine ⟨R.take fileSize.toNat, rfl, ?_⟩
    simp only [List.length_take]

/-- Witness for C1 on the concrete volume fsW: the one-cluster chain
starting at cluster 2 holds 4 bytes, so a file of declared size 3 is read
back as exactly 3 bytes with no error. -/
theorem Fs.readFileAt_fullRead_witness :
    ∃ D : List Nat, fsW.readFileAt 2 3 0 0 1 1 = some (D, none) ∧
      D.length = 3 := by
  have h := Fs.readFileAt_fullRead fsW 2 3 [] 0x0FFFFFF8 (by norm_num)
    (fun s =>
      if hs : s = 2 then ⟨[0xF8, 0xFF, 0, 0], by simp [fsW, hs]⟩
      else ⟨[10, 11, 12, 13], by simp [fsW, hs]⟩)
    (show fsW.getFatEntry 2 = Except.ok 0x0FFFFFF8 by rfl)
    (by decide) 1 1 (by decide) (by decide)
  simpa [fsW] using h

/-!
Translation of the directory decoder Fs.parseDir with its entry layouts
(model source file) and the long-filename machinery.
-/

/-- Attribute constants of the source. -/
def AttrReadOnly : Nat := 0x01

def AttrHidden : Nat := 0x02

def AttrSystem : Nat := 0x04

def AttrVolumeId : Nat := 0x08

def AttrDirectory : Nat := 0x10

def AttrArchive : Nat := 0x20

def AttrLongName : Nat := AttrReadOnly ||| AttrHidden ||| AttrSystem ||| AttrVolumeId

/-- Translation of the Go structure EntryHeader (one 32-byte directory
entry). -/
structure EntryHeader : Type where
  Name : List Nat
  Attribute : Nat
  NTReserved : Nat
  CreateTimeTenth : Nat
  CreateTime : Nat
  CreateDate : Nat
  LastAccessDate : Nat
  FirstClusterHI : Nat
  WriteTime : Nat
  WriteDate : Nat
  FirstClusterLO : Nat
  FileSize : Nat
deriving DecidableEq, Repr

/-- Translation of the Go structure LongFilenameEntry (one 32-byte LFN
slot). -/
structure LongFilenameEntry : Type where
  Sequence : Nat
  First : List Nat
  Attribute : Nat
  EntryType : Nat
  Checksum : Nat
  Second : List Nat
  Zero : List Nat
  Third : List Nat
deriving DecidableEq, Repr

/-- Translation of the Go structure ExtendedEntryHeader: a short entry plus
the long name decoded from its preceding LFN run (empty when absent). -/
structure ExtendedEntryHeader extends EntryHeader where
  ExtendedName : String
deriving DecidableEq, Repr

/-- binary.Read of one EntryHeader from a 32-byte little-endian chunk. -/
def parseEntryHeader (b : List Nat) : EntryHeader where
  Name := b.take 11
  Attribute := b.getD 11 0
  NTReserved := b.getD 12 0
  CreateTimeTenth := b.getD 13 0
  CreateTime := leUint16 b 14
  CreateDate := leUint16 b 16
  LastAccessDate := leUint16 b 18
  FirstClusterHI := leUint16 b 20
  WriteTime := leUint16 b 22
  WriteDate := leUint16 b 24
  FirstClusterLO := leUint16 b 26
  FileSize := leUint32 b 28

/-- binary.Read of one LongFilenameEntry from a 32-byte little-endian
chunk. -/
def parseLongFilenameEntry (b : List Nat) : LongFilenameEntry where
  Sequence := b.getD 0 0
  First := [leUint16 b 1, leUint16 b 3, leUint16 b 5, leUint16 b 7, leUint16 b 9]
  Attribute := b.getD 11 0
  EntryType := b.getD 12 0
  Checksum := b.getD 13 0
  Second := [leUint16 b 14, leUint16 b 16, leUint16 b 18, leUint16 b 20,
    leUint16 b 22, leUint16 b 24]
  Zero := [b.getD 26 0, b.getD 27 0]
  Third := [leUint16 b 28, leUint16 b 30]

/-- The rotate-right checksum of the 11 short-name bytes, translated from
the loop inside Fs.parseDir; the byte addition wraps modulo 256. -/
def shortNameChecksum (name : List Nat) : Nat :=
  (List.range 11).foldl
    (fun checksum i =>
      ((((checksum &&& 1) <<< 7) ||| ((checksum &&& 0xfe) >>> 1)) +
        name.getD i 0) % 256)
    0

/-- Translation of the reverse validation loop over a pending LFN run:
the slots are supplied already reversed (nearest the short entry first),
sequenceNumber counts from the given start; on the first failing slot the
run is invalid.  Note the source masks the sequence byte with 0b0001111,
which is a four-bit mask. -/
def lfnScan (checksum : Nat) : List LongFilenameEntry → Nat → Bool × List Nat
  | [], _ => (true, [])
  | current :: rest, sequenceNumber =>
    if current.Checksum ≠ checksum then (false, [])
    else if current.Sequence &&& 0b0001111 ≠ (sequenceNumber + 1) % 256 then
      (false, [])
    else
      let res := lfnScan checksum rest (sequenceNumber + 1)
      (res.1, current.First ++ current.Second ++ current.Third ++ res.2)

/-- Rendering of the collected UTF-16 code units: stop at the first zero
unit and render each unit as a character, as the fmt.Sprintf loop of the
source does.  (Go renders an invalid unit, e.g. a lone surrogate, as the
replacement character while Char.ofNat yields the zero character; no
theorem below touches that corner.) -/
def lfnRender (chars : List Nat) : String :=
  String.mk ((chars.takeWhile (fun c => c ≠ 0)).map Char.ofNat)

/-- The scanning loop of Fs.parseDir over the decoded entries:
longFilename is the pending LFN run ([] models the nil slice),
lastLongFilenameIndex the index of its last slot (-1 initially), and
directory the emitted entries.  The first argument counts the entries not
yet visited (entries.length at the top-level call), making the recursion
structural; the loop itself stops at i = entries.length exactly as Go
does. -/
def parseDirLoop (data : List Nat) (entries : List EntryHeader) :
    Nat → Nat → List LongFilenameEntry → Int → List ExtendedEntryHeader →
      List ExtendedEntryHeader
  | 0, _, _, _, directory => directory
  | count + 1, i, longFilename, lastLongFilenameIndex, directory =>
    if h : i < entries.length then
    let entry0 := entries.get ⟨i, h⟩
    if entry0.Name.getD 0 0 = 0x00 then directory
    else if entry0.Name.getD 0 0 = 0x2E then
      parseDirLoop data entries count (i + 1) longFilename
        lastLongFilenameIndex directory
    else if entry0.Name.getD 0 0 = 0xE5 then
      parseDirLoop data entries count (i + 1) longFilename
        lastLongFilenameIndex directory
    else
      let entry := if entry0.Name.getD 0 0 = 0x05 then
        { entry0 with Name := entry0.Name.set 0 0xE5 } else entry0
      if entry.Attribute &&& AttrLongName = AttrLongName then
        let longFilenameEntry := parseLongFilenameEntry
          ((data.drop (i * 32)).take 32)
        if longFilenameEntry.Sequence = 0xE5 then
          parseDirLoop data entries count (i + 1) longFilename
            lastLongFilenameIndex directory
        else
          let st := if longFilenameEntry.Sequence &&& 0x40 = 0x40 then
            (([] : List LongFilenameEntry), (i : Int) - 1)
          else (longFilename, lastLongFilenameIndex)
          if st.2 + 1 ≠ (i : Int) then
            parseDirLoop data entries count (i + 1) [] (i : Int) directory
          else
            parseDirLoop data entries count (i + 1)
              (st.1 ++ [longFilenameEntry]) (i : Int) directory
      else if entry.Attribute &&& AttrVolumeId = AttrVolumeId then
        parseDirLoop data entries count (i + 1) longFilename
          lastLongFilenameIndex directory
      else
        let newEntry : ExtendedEntryHeader :=
          if longFilename ≠ [] ∧ lastLongFilenameIndex + 1 = (i : Int) then
            let checksum := shortNameChecksum entry.Name
            let res := lfnScan checksum longFilename.reverse 0
            if res.1 then
              { toEntryHeader := entry, ExtendedName := lfnRender res.2 }
            else
              { toEntryHeader := entry, ExtendedName := "" }
          else { toEntryHeader := entry, ExtendedName := "" }
        parseDirLoop data entries count (i + 1) [] (i : Int)
          (directory ++ [newEntry])
    else directory

/-- Translation of Fs.parseDir: decode the raw directory bytes as
len / 32 entry headers and scan them.  The binary.Read of the Go code
cannot fail because exactly len / 32 complete 32-byte chunks are read,
so the error path of the source is unreachable and the result is
always ok. -/
def Fs.parseDir (data : List Nat) : Except GoErr (List ExtendedEntryHeader) :=
  let entries := (List.range (data.length / 32)).map
    (fun i => parseEntryHeader ((data.drop (i * 32)).take 32))
  .ok (parseDirLoop data entries entries.length 0 [] (-1) [])

/-- A 64-byte directory: one LFN slot with sequence byte 0x11 (low five
bits 17, low four bits 1), one UTF-16 character A and the checksum 28 of
the short name AAAAAAAAAAA, followed by that short entry (attribute
Archive). -/
def lfnBugData : List Nat :=
  [0x11, 0x41, 0x00, 0x00, 0x00, 0x00, 0x00, 0x00, 0x00, 0x00, 0x00,
   0x0F, 0x00, 28,
   0x00, 0x00, 0x00, 0x00, 0x00, 0x00, 0x00, 0x00, 0x00, 0x00, 0x00, 0x00,
   0x00, 0x00,
   0x00, 0x00, 0x00, 0x00,
   0x41, 0x41, 0x41, 0x41, 0x41, 0x41, 0x41, 0x41, 0x41, 0x41, 0x41,
   0x20, 0x00, 0x00, 0x00, 0x00, 0x00, 0x00, 0x00, 0x00, 0x00, 0x00,
   0x00, 0x00, 0x00, 0x00, 0x00, 0x00, 0x00, 0x00, 0x00, 0x00, 0x00]

/-- C2 (code bug): the decoder accepts the long name A for the directory
lfnBugData although the slot's sequence byte 0x11 has low five bits
17 ≠ 1; the source masks the sequence byte with the four-bit mask
0b0001111 instead of the five-bit mask required by the claim (and by the
FAT long-filename format), so the slot passes as ordinal 1 and the long
name is kept where it must be discarded. -/
theorem Fs.parseDir_seqMask_bug :
    (Fs.parseDir lfnBugData).map (fun l => l.map ExtendedEntryHeader.ExtendedName) =
      .ok ["A"] := by
  rfl

/-!
Translation of Fs.initialize (the mount-time validation of the BPB) and
the BPB layout.
-/

/-- Translation of the Go structure BPB (model source file). -/
structure BPB : Type where
  BSJumpBoot : List Nat
  BSOEMName : List Nat
  BytesPerSector : Nat
  SectorsPerCluster : Nat
  ReservedSectorCount : Nat
  NumFATs : Nat
  RootEntryCount : Nat
  TotalSectors16 : Nat
  Media : Nat
  FATSize16 : Nat
  SectorsPerTrack : Nat
  NumberOfHeads : Nat
  HiddenSectors : Nat
  TotalSectors32 : Nat
  FATSpecificData : List Nat
deriving DecidableEq, Repr

/-- binary.Read of the BPB from the first 90 bytes of sector 0. -/
def parseBPB (b : List Nat) : BPB where
  BSJumpBoot := b.take 3
  BSOEMName := (b.drop 3).take 8
  BytesPerSector := leUint16 b 11
  SectorsPerCluster := b.getD 13 0
  ReservedSectorCount := leUint16 b 14
  NumFATs := b.getD 16 0
  RootEntryCount := leUint16 b 17
  TotalSectors16 := leUint16 b 19
  Media := b.getD 21 0
  FATSize16 := leUint16 b 22
  SectorsPerTrack := leUint16 b 24
  NumberOfHeads := leUint16 b 26
  HiddenSectors := leUint32 b 28
  TotalSectors32 := leUint32 b 32
  FATSpecificData := (b.drop 36).take 54

/-- binary.Read of the FAT32 extension from the 54-byte FAT-specific
area. -/
def parseFAT32SpecificData (b : List Nat) : FAT32SpecificData where
  FatSize := leUint32 b 0
  ExtFlags := leUint16 b 4
  FSVersion := leUint16 b 6
  RootCluster := leUint32 b 8
  FSInfo := leUint16 b 12
  BkBootSector := leUint16 b 14
  Reserved := (b.drop 16).take 12
  BSDriveNumber := b.getD 28 0
  BSReserved1 := b.getD 29 0
  BSBootSignature := b.getD 30 0
  BSVolumeID := leUint32 b 31
  BSVolumeLabel := (b.drop 35).take 11
  BSFileSystemType := (b.drop 46).take 8

/-- binary.Read of the FAT16 extension from the FAT-specific area. -/
def parseFAT16SpecificData (b : List Nat) : FAT16SpecificData where
  BSDriveNumber := b.getD 0 0
  BSReserved1 := b.getD 1 0
  BSBootSignature := b.getD 2 0
  BSVolumeId := leUint32 b 3
  BSVolumeLabel := (b.drop 7).take 11
  BSFileSystemType := (b.drop 18).take 8

/-- The Go zero value of the FAT32 extension (left in the Info when the
16-bit FAT size field is non-zero and the extension is never decoded). -/
def zeroFAT32SpecificData : FAT32SpecificData :=
  ⟨0, 0, 0, 0, 0, 0, List.replicate 12 0, 0, 0, 0, 0,
    List.replicate 11 0, List.replicate 8 0⟩

/-- The Go zero value of the FAT16 extension. -/
def zeroFAT16SpecificData : FAT16SpecificData :=
  ⟨0, 0, 0, 0, List.replicate 11 0, List.replicate 8 0⟩

/-- Translation of Fs.initialize: fetch sector 0 with the tentative
512-byte sector size, decode the BPB, run the structural checks (when
skipChecks is false), classify the FAT type from the cluster count and
assemble the Info.  Machine-arithmetic notes: the product
BytesPerSector * SectorsPerCluster in the cluster-size check is a uint16
product and wraps modulo 65536; RootEntryCount * 32 in the root-entry
check is a uint16 product as well; the sector counts are uint32 values.
Where Go would panic on a division by zero (sector size or sectors per
cluster zero, reachable only with skipped checks) the model divides by
zero in Nat, yielding 0.  The second dead computation of dataSectors in
the source has no observable effect and is omitted. -/
def Fs.initVolume (disk : Nat → Except GoErr (List Nat)) (skipChecks : Bool) :
    Except GoErr Info :=
  match disk 0 with
  | .error e => .error (e.cpWrap (.errFetchingSector 0))
  | .ok raw =>
    let buffer := padToLength 512 raw
    let bpb := parseBPB buffer
    if ¬ skipChecks ∧ ¬ ((bpb.BSJumpBoot.getD 0 0 = 0xEB ∧
        bpb.BSJumpBoot.getD 2 0 = 0x90) ∨ bpb.BSJumpBoot.getD 0 0 = 0xE9) then
      .error (.errInitFs ("no valid jump instructions at the beginning"))
    else if ¬ skipChecks ∧ bpb.BytesPerSector ≠ 512 ∧
        bpb.BytesPerSector ≠ 1024 ∧ bpb.BytesPerSector ≠ 2048 ∧
        bpb.BytesPerSector ≠ 4096 then
      .error (.errInitFs ("invalid sector size"))
    else if ¬ skipChecks ∧ (bpb.SectorsPerCluster % 2 ≠ 0 ∨
        bpb.SectorsPerCluster = 0 ∨
        (bpb.BytesPerSector * bpb.SectorsPerCluster) % 65536 > 32 * 1024) then
      .error (.errInitFs ("invalid sectors per cluster"))
    else if ¬ skipChecks ∧ bpb.ReservedSectorCount = 0 then
      .error (.errInitFs ("invalid reserved sector count"))
    else if ¬ skipChecks ∧ bpb.NumFATs < 1 then
      .error (.errInitFs ("invalid FAT count"))
    else if ¬ skipChecks ∧ bpb.Media ≠ 0xF0 ∧
        ¬ (0xF8 ≤ bpb.Media ∧ bpb.Media ≤ 0xFF) then
      .error (.errInitFs ("invalid media value"))
    else if ¬ skipChecks ∧ (buffer.getD 510 0 ≠ 0x55 ∨
        buffer.getD 511 0 ≠ 0xAA) then
      .error (.errInitFs ("invalid signature at offset 510 / 511"))
    else
      let rootDirSectors := ((bpb.RootEntryCount * 32 +
        (bpb.BytesPerSector + 4294967296 - 1) % 4294967296) % 4294967296) /
        bpb.BytesPerSector
      let fat32Specific := if bpb.FATSize16 ≠ 0 then zeroFAT32SpecificData
        else parseFAT32SpecificData bpb.FATSpecificData
      let fatSize := if bpb.FATSize16 ≠ 0 then bpb.FATSize16
        else fat32Specific.FatSize
      let totalSectors := if bpb.TotalSectors16 ≠ 0 then bpb.TotalSectors16
        else bpb.TotalSectors32
      let dataSectors := ((totalSectors + 4294967296 -
        (bpb.ReservedSectorCount + bpb.NumFATs) % 4294967296) +
        rootDirSectors) % 4294967296
      let countOfClusters := dataSectors / bpb.SectorsPerCluster
      if countOfClusters < 4085 then
        .error (.wrap .errNotSupported (.other ("FAT12 is not supported")))
      else
        let fsType := if countOfClusters < 65525 then FATType.FAT16
          else FATType.FAT32
        if (fsType = FATType.FAT32 ∧ bpb.RootEntryCount ≠ 0) ∨
            (fsType ≠ FATType.FAT32 ∧
              (bpb.RootEntryCount * 32) % 65536 % bpb.BytesPerSector ≠ 0) then
          .error (.errInitFs ("invalid root entry count"))
        else
          let totalSectorCount := if bpb.TotalSectors16 ≠ 0 then
            bpb.TotalSectors16 else bpb.TotalSectors32
          let firstDataSector := (bpb.ReservedSectorCount +
            bpb.NumFATs * fatSize + rootDirSectors) % 4294967296
          if fsType = FATType.FAT32 then
            .ok { FSType := fsType
                  FatCount := bpb.NumFATs
                  FatSize := fatSize
                  SectorsPerCluster := bpb.SectorsPerCluster
                  FirstDataSector := firstDataSector
                  TotalSectorCount := totalSectorCount
                  ReservedSectorCount := bpb.ReservedSectorCount
                  BytesPerSector := bpb.BytesPerSector
                  Label := fat32Specific.BSVolumeLabel
                  fat32Specific := fat32Specific
                  fat16Specific := zeroFAT16SpecificData
                  RootEntryCount := bpb.RootEntryCount }
          else
            let fat16Specific := parseFAT16SpecificData bpb.FATSpecificData
            .ok { FSType := fsType
                  FatCount := bpb.NumFATs
                  FatSize := fatSize
                  SectorsPerCluster := bpb.SectorsPerCluster
                  FirstDataSector := firstDataSector
                  TotalSectorCount := totalSectorCount
                  ReservedSectorCount := bpb.ReservedSectorCount
                  BytesPerSector := bpb.BytesPerSector
                  Label := fat16Specific.BSVolumeLabel
                  fat32Specific := fat32Specific
                  fat16Specific := fat16Specific
                  RootEntryCount := bpb.RootEntryCount }

/-- Sector 0 of a volume that passes every structural check apart from the
sectors-per-cluster field, which is the argument: 512-byte sectors, one
reserved sector, one FAT of 16 sectors, 16 root entries, 40000 total
sectors, media 0xF8, a valid jump and a valid signature. -/
def bpbSector (spc : Nat) : List Nat :=
  [0xEB, 0x3C, 0x90] ++ List.replicate 8 0x20 ++
  [0x00, 0x02] ++ [spc] ++ [0x01, 0x00] ++ [0x01] ++ [0x10, 0x00] ++
  [0x40, 0x9C] ++ [0xF8] ++ [0x10, 0x00] ++ List.replicate 12 0x00 ++
  List.replicate 54 0x00 ++ List.replicate 420 0x00 ++ [0x55, 0xAA]

/-- A disk that answers every sector request with the BPB sector above. -/
def diskC4 (spc : Nat) : Nat → Except GoErr (List Nat) :=
  fun _ => .ok (bpbSector spc)

set_option maxRecDepth 10000 in
/-- C4 (code bug): the strict mount check rejects sectors_per_cluster = 1
(a legal power of two, cluster size 512 ≤ 32 KiB) with the
invalid-sectors-per-cluster error, and accepts sectors_per_cluster = 6
(not a power of two): the source tests SectorsPerCluster % 2 != 0 instead
of a power-of-two test, contradicting its own comment and the claim. -/
theorem Fs.initVolume_sectorsPerCluster_bug :
    Fs.initVolume (diskC4 1) false =
        .error (GoErr.errInitFs ("invalid sectors per cluster")) ∧
      (Fs.initVolume (diskC4 6) false).isOk = true := by
  exact ⟨rfl, rfl⟩

/-!
Translation of the file layer: the os.FileInfo rendering of a directory
entry (stat source file) and the File type with its operations (file
source file).  The file layer reaches the volume only through the
capability set of the fatFileFs interface (readFileAt, readRoot, readDir),
which is modelled by the FatFileFs structure.
-/

/-- Go string(bytes) for a byte list; faithful for ASCII content, which is
all the 8.3 short names hold. -/
def goByteString (bs : List Nat) : String :=
  String.mk (bs.map Char.ofNat)

/-- strings.TrimRight(s, " ") on a byte list. -/
def dropTrailingSpaces (l : List Nat) : List Nat :=
  (l.reverse.dropWhile (fun b => b = 0x20)).reverse

/-- Translation of entryHeaderFileInfo (stat source file): the os.FileInfo
of one directory entry. -/
structure entryHeaderFileInfo : Type where
  entry : ExtendedEntryHeader
deriving DecidableEq, Repr

/-- Translation of entryHeaderFileInfo.Name: the long name when present,
else the trimmed 8.3 short name joined with a dot when the extension is
non-empty. -/
def entryHeaderFileInfo.Name (e : entryHeaderFileInfo) : String :=
  if e.entry.ExtendedName ≠ "" then e.entry.ExtendedName
  else
    let name := dropTrailingSpaces (e.entry.Name.take 8)
    let ext := dropTrailingSpaces ((e.entry.Name.drop 8).take 3)
    goByteString name ++ (if ext ≠ [] then "." else "") ++ goByteString ext

/-- Translation of entryHeaderFileInfo.Size. -/
def entryHeaderFileInfo.Size (e : entryHeaderFileInfo) : Int :=
  (e.entry.FileSize : Int)

/-- Translation of entryHeaderFileInfo.IsDir. -/
def entryHeaderFileInfo.IsDir (e : entryHeaderFileInfo) : Bool :=
  decide (e.entry.Attribute &&& 0x10 = 0x10)

/-- Translation of ExtendedEntryHeader.FileInfo. -/
def ExtendedEntryHeader.FileInfo (h : ExtendedEntryHeader) : entryHeaderFileInfo :=
  ⟨h⟩

/-- The fatFileFs capability set of the file source: everything a File
needs from the filesystem (the source defines this interface precisely so
the volume can be replaced in tests).  readFileAtO returns the bytes and
the error of a range read; readRootO and readDirO return directory
listings. -/
structure FatFileFs : Type where
  readFileAtO : Nat → Int → Int → Int → List Nat × Option GoErr
  readRootO : Except GoErr (List ExtendedEntryHeader)
  readDirO : Nat → Except GoErr (List ExtendedEntryHeader)

/-- Translation of the File structure (file source file). -/
structure File : Type where
  fs : FatFileFs
  path : String
  isDirectory : Bool
  isReadOnly : Bool
  isHidden : Bool
  isSystem : Bool
  firstCluster : Nat
  stat : entryHeaderFileInfo
  offset : Int

/-- Translation of File.Seek: recompute the offset from the whence
(0 = start, 1 = current, 2 = end as io.SeekStart/Current/End), reject an
unknown whence with the EINVAL-annotated seek error and an offset outside
[0, size] with the out-of-range error.  Returns the updated file, the new
offset and the error. -/
def File.Seek (f : File) (offset : Int) (whence : Nat) :
    File × Int × Option GoErr :=
  let res : Option Int :=
    match whence with
    | 0 => some offset
    | 1 => some (f.offset + offset)
    | 2 => some (f.stat.Size + offset)
    | _ => none
  match res with
  | none => (f, 0, some (GoErr.errSeekFile.cpWrap .einval))
  | some newOffset =>
    if newOffset < 0 ∨ newOffset > f.stat.Size then
      (f, 0, some (GoErr.outOfRange.cpWrap .errSeekFile))
    else ({ f with offset := newOffset }, newOffset, none)

/-- Go copy(dst, src): overwrite the first min(len dst, len src) elements
of dst with src. -/
def goCopy (dst src : List Nat) : List Nat :=
  src.take (min dst.length src.length) ++ dst.drop (min dst.length src.length)

/-- Translation of File.Read.  The buffer argument is an Option because a
Go byte slice can be nil; the result carries the updated file, the count,
the error and the caller's buffer after the copy (none when it was nil). -/
def File.Read (f : File) (p : Option (List Nat)) :
    File × Int × Option GoErr × Option (List Nat) :=
  match p with
  | none => (f, 0, none, none)
  | some buf =>
    if f.stat.Size ≤ f.offset then (f, 0, some GoErr.eof, some buf)
    else
      let res := f.fs.readFileAtO f.firstCluster f.stat.Size f.offset
        (buf.length : Int)
      let buf2 := goCopy buf res.1
      let seekRes := f.Seek (res.1.length : Int) 1
      if res.2 ≠ none then
        (seekRes.1, (res.1.length : Int), cpWrapO res.2 .errReadFile, some buf2)
      else if seekRes.2.2 ≠ none then
        (seekRes.1, (res.1.length : Int), cpWrapO seekRes.2.2 .errReadFile,
          some buf2)
      else (seekRes.1, (res.1.length : Int), none, some buf2)

/-- Translation of File.ReadAt: like Read but at an explicit offset and
without moving the handle's offset; a short read returns
checkpoint.Wrap(nil, ErrReadFile), which is nil. -/
def File.ReadAt (f : File) (p : Option (List Nat)) (off : Int) :
    File × Int × Option GoErr × Option (List Nat) :=
  match p with
  | none => (f, 0, none, none)
  | some buf =>
    if f.stat.Size ≤ off then (f, 0, some GoErr.eof, some buf)
    else
      let res := f.fs.readFileAtO f.firstCluster f.stat.Size off
        (buf.length : Int)
      let buf2 := goCopy buf res.1
      if res.2 ≠ none then
        (f, (res.1.length : Int), cpWrapO res.2 .errReadFile, some buf2)
      else if (res.1.length : Int) < (buf.length : Int) then
        (f, (res.1.length : Int), cpWrapO none .errReadFile, some buf2)
      else (f, (res.1.length : Int), none, some buf2)

/-- C10: Read and ReadAt with a nil buffer return (0, nil) immediately,
leaving the whole handle (offset included) unchanged and consulting no
oracle, even where a non-nil buffer at an offset at or past the file size
would be refused with io.EOF - as the last two conjuncts show for the
non-nil case. -/
theorem File.Read_nilBuffer (f : File) (off : Int) (buf : List Nat) :
    File.Read f none = (f, 0, none, none) ∧
    File.ReadAt f none off = (f, 0, none, none) ∧
    (f.stat.Size ≤ f.offset →
      File.Read f (some buf) = (f, 0, some GoErr.eof, some buf)) ∧
    (f.stat.Size ≤ off →
      File.ReadAt f (some buf) off = (f, 0, some GoErr.eof, some buf)) := by
  refine ⟨rfl, rfl, fun h => ?_, fun h => ?_⟩
  · simp [File.Read, if_pos h]
  · simp [File.ReadAt, if_pos h]

/-- An all-zero short entry used by the concrete file handles below. -/
def zeroEntryHeader : EntryHeader :=
  ⟨List.replicate 11 0x20, 0, 0, 0, 0, 0, 0, 0, 0, 0, 0, 0⟩

/-- A concrete closed file handle of size 0 at offset 0, over an oracle
that always returns empty data. -/
def file0 : File where
  fs := ⟨fun _ _ _ _ => ([], none), .ok [], fun _ => .ok []⟩
  path := ""
  isDirectory := false
  isReadOnly := false
  isHidden := false
  isSystem := false
  firstCluster := 0
  stat := ⟨{ toEntryHeader := zeroEntryHeader, ExtendedName := "" }⟩
  offset := 0

/-- Witness for C10 at the concrete handle file0, whose size 0 equals its
offset, so the nil buffer returns (0, nil) where the non-nil buffer [7]
is refused with io.EOF. -/
theorem File.Read_nilBuffer_witness :
    File.Read file0 none = (file0, 0, none, none) ∧
      File.Read file0 (some [7]) = (file0, 0, some GoErr.eof, some [7]) := by
  obtain ⟨h1, -, h3, -⟩ := File.Read_nilBuffer file0 0 [7]
  exact ⟨h1, h3 (by decide)⟩

/-- Translation of File.Readdir: list the directory (root listing for the
root handle, else the handle's cluster chain), clamp the requested count
against what remains past the handle's offset (setting io.EOF when the
request exceeds it), slice, advance the offset and render the FileInfos.
Where Go would panic on slicing with an offset outside [0, len] the model
clamps; the theorems below keep the offset in range. -/
def File.Readdir (f : File) (count : Int) :
    File × Option (List entryHeaderFileInfo) × Option GoErr :=
  if ¬ f.isDirectory then (f, none, some (GoErr.enotdir.cpWrap .errReadDir))
  else
    match (if f.path = "" then f.fs.readRootO else f.fs.readDirO f.firstCluster) with
    | .error e => (f, none, some (e.cpWrap .errReadDir))
    | .ok content =>
      let adj := if (content.length : Int) < f.offset + count then
          ((content.length : Int) - f.offset, (some GoErr.eof : Option GoErr))
        else (count, none)
      let end1 := if 0 ≤ adj.1 then f.offset + adj.1 else (content.length : Int)
      let sliced := (content.take end1.toNat).drop f.offset.toNat
      let f2 := if 0 < adj.1 then { f with offset := f.offset + adj.1 }
        else if adj.1 < 0 then { f with offset := end1 } else f
      (f2, some (sliced.map ExtendedEntryHeader.FileInfo), adj.2)

/-- Translation of File.Readdirnames: call Readdir; on any error return
nil names and the error wrapped in the read-dir error (io.EOF passes
through the wrap unchanged); on success map the entries through the name
accessor. -/
def File.Readdirnames (f : File) (count : Int) :
    File × Option (List String) × Option GoErr :=
  let r := f.Readdir count
  match r.2.2 with
  | some e => (r.1, none, some (e.cpWrap .errReadDir))
  | none => (r.1, some ((r.2.1.getD []).map entryHeaderFileInfo.Name), none)

/-- C6 (amended): on a directory handle with its offset inside the listing,
Readdir with n < 0 returns all remaining entries (offset moves to the end,
no error); with n = 0 it returns an empty batch and leaves the offset
unchanged; and when n > 0 exceeds what remains it returns exactly the
remaining entries together with io.EOF and sets the offset to the end of
the listing. -/
theorem File.Readdir_amended (f : File) (content : List ExtendedEntryHeader)
    (n : Int)
    (hdir : f.isDirectory = true)
    (hcontent : (if f.path = "" then f.fs.readRootO
      else f.fs.readDirO f.firstCluster) = .ok content)
    (hoff0 : 0 ≤ f.offset) (hoffLen : f.offset ≤ (content.length : Int)) :
    (n < 0 → File.Readdir f n = ({ f with offset := (content.length : Int) },
      some ((content.drop f.offset.toNat).map ExtendedEntryHeader.FileInfo),
      none)) ∧
    (n = 0 → File.Readdir f n = (f, some [], none)) ∧
    (0 < n → (content.length : Int) < f.offset + n →
      File.Readdir f n = ({ f with offset := (content.length : Int) },
        some ((content.drop f.offset.toNat).map ExtendedEntryHeader.FileInfo),
        some GoErr.eof)) := by
  refine ⟨fun hn => ?_, fun hn => ?_, fun hn hexceed => ?_⟩
  · have hadj : ¬ ((content.length : Int) < f.offset + n) := by omega
    have htake : (content.length : Int).toNat = content.length := by omega
    have h0 : ¬ (0 ≤ n) := by omega
    have h1 : ¬ (0 < n) := by omega
    simp [File.Readdir, hdir, hcontent, hadj, htake, h0, h1, hn,
      List.take_length]
  · subst hn
    have hadj : ¬ ((content.length : Int) < f.offset) := by omega
    simp [File.Readdir, hdir, hcontent, hadj]
  · have htake : (content.length : Int).toNat = content.length := by omega
    have hc0 : 0 ≤ (content.length : Int) - f.offset := by omega
    simp [File.Readdir, hdir, hcontent, hexceed, htake, hc0, List.take_length]
    intro h1 h2
    have hof : f.offset = (content.length : Int) := by omega
    rw [← hof, ← hdir]

/-- A directory entry named a. -/
def entryA : ExtendedEntryHeader :=
  { toEntryHeader := zeroEntryHeader, ExtendedName := "a" }

/-- A directory entry named b. -/
def entryB : ExtendedEntryHeader :=
  { toEntryHeader := zeroEntryHeader, ExtendedName := "b" }

/-- A concrete open root-directory handle whose listing holds the two
entries a and b, positioned at offset 0. -/
def dirFile2 : File where
  fs := ⟨fun _ _ _ _ => ([], none), .ok [entryA, entryB], fun _ => .ok []⟩
  path := ""
  isDirectory := true
  isReadOnly := false
  isHidden := false
  isSystem := false
  firstCluster := 0
  stat := ⟨{ toEntryHeader := zeroEntryHeader, ExtendedName := "" }⟩
  offset := 0

/-- Counterexample for C6 as stated: on the two-entry directory handle
dirFile2 (offset 0, so two entries remain), Readdir 0 returns the empty
batch and no error instead of the two remaining entries. -/
theorem File.Readdir_zero_counterexample :
    File.Readdir dirFile2 0 = (dirFile2, some [], none) ∧
      dirFile2.fs.readRootO = .ok [entryA, entryB] :=
  ⟨rfl, rfl⟩

/-- Witness for the amended C6 at dirFile2: Readdir (-1) returns both
entries with no error, and Readdir 5 (more than the two remaining) returns
both entries together with io.EOF; both leave the offset at the end. -/
theorem File.Readdir_amended_witness :
    File.Readdir dirFile2 (-1) = ({ dirFile2 with offset := 2 },
      some [entryA.FileInfo, entryB.FileInfo], none) ∧
    File.Readdir dirFile2 5 = ({ dirFile2 with offset := 2 },
      some [entryA.FileInfo, entryB.FileInfo], some GoErr.eof) := by
  constructor
  · have h := (File.Readdir_amended dirFile2 [entryA, entryB] (-1) rfl rfl
      (by decide) (by decide)).1 (by decide)
    simpa using h
  · have h := (File.Readdir_amended dirFile2 [entryA, entryB] 5 rfl rfl
      (by decide) (by decide)).2.2 (by decide) (by decide)
    simpa using h

/-- C9 (amended): Readdirnames returns exactly the names of the entries
Readdir produces when Readdir reports no error; when Readdir reports an
error - including the end-of-data error that accompanies a partial batch -
Readdirnames discards the entries and returns nil names together with the
error wrapped in the read-dir error (io.EOF passes through the wrap
unchanged). -/
theorem File.Readdirnames_amended (f : File) (n : Int) :
    (∀ f2 content, File.Readdir f n = (f2, content, none) →
      File.Readdirnames f n =
        (f2, some ((content.getD []).map entryHeaderFileInfo.Name), none)) ∧
    (∀ f2 content e, File.Readdir f n = (f2, content, some e) →
      File.Readdirnames f n = (f2, none, some (e.cpWrap GoErr.errReadDir))) := by
  constructor
  · intro f2 content h
    simp [File.Readdirnames, h]
  · intro f2 content e h
    simp [File.Readdirnames, h]

/-- Counterexample for C9 as stated: on dirFile2, Readdir 5 produces both
entries together with io.EOF, but Readdirnames 5 returns nil names
(the produced entries are discarded, not mapped through the name
accessor). -/
theorem File.Readdirnames_discard_counterexample :
    File.Readdir dirFile2 5 = ({ dirFile2 with offset := 2 },
        some [entryA.FileInfo, entryB.FileInfo], some GoErr.eof) ∧
      File.Readdirnames dirFile2 5 =
        ({ dirFile2 with offset := 2 }, none, some GoErr.eof) :=
  ⟨rfl, rfl⟩

/-- Witness for the amended C9: both cases applied at dirFile2, the
no-error case with count -1 and the error case with count 5 (whose io.EOF
passes through the read-dir wrap unchanged). -/
theorem File.Readdirnames_amended_witness :
    File.Readdirnames dirFile2 (-1) = ({ dirFile2 with offset := 2 },
      some ["a", "b"], none) ∧
    File.Readdirnames dirFile2 5 =
      ({ dirFile2 with offset := 2 }, none, some GoErr.eof) := by
  constructor
  · have h := (File.Readdirnames_amended dirFile2 (-1)).1
      ({ dirFile2 with offset := 2 })
      (some [entryA.FileInfo, entryB.FileInfo]) (by rfl)
    simpa [entryA, entryB, entryHeaderFileInfo.Name,
      ExtendedEntryHeader.FileInfo] using h
  · exact (File.Readdirnames_amended dirFile2 5).2
      ({ dirFile2 with offset := 2 })
      (some [entryA.FileInfo, entryB.FileInfo]) GoErr.eof (by rfl)

/-!
The write-shaped operations.  In the source every one of them is a stub
whose whole body is panic("implement me"); the model makes the panic an
explicit outcome.
-/

/-- The outcome of a Go call that may panic: a returned value together
with the error slot, or an aborted call with the panic message. -/
inductive GoOutcome (α : Type) : Type where
  | ok (val : α) (err : Option GoErr)
  | panicked (msg : String)
deriving DecidableEq, Repr

/-- Go []byte(s): the UTF-8 bytes of the string. -/
def stringBytes (s : String) : List Nat :=
  s.toUTF8.toList.map (fun b => b.toNat)

/-- Translation of File.Write. -/
def File.Write (f : File) (p : Option (List Nat)) : GoOutcome Int :=
  .panicked ("implement me")

/-- Translation of File.WriteAt. -/
def File.WriteAt (f : File) (p : Option (List Nat)) (off : Int) : GoOutcome Int :=
  .panicked ("implement me")

/-- Translation of File.WriteString: it forwards to Write (which panics
before looking at the bytes). -/
def File.WriteString (f : File) (s : String) : GoOutcome Int :=
  f.Write (some (stringBytes s))

/-- Translation of File.Sync. -/
def File.Sync (f : File) : GoOutcome Unit :=
  .panicked ("implement me")

/-- Translation of File.Truncate. -/
def File.Truncate (f : File) (size : Int) : GoOutcome Unit :=
  .panicked ("implement me")

/-- Translation of Fs.Create (the declared afero.File result is never
produced, so the value type is Unit here and in the stubs below). -/
def Fs.Create (f : Fs) (name : String) : GoOutcome Unit :=
  .panicked ("implement me")

/-- Translation of Fs.Mkdir. -/
def Fs.Mkdir (f : Fs) (name : String) (perm : Nat) : GoOutcome Unit :=
  .panicked ("implement me")

/-- Translation of Fs.MkdirAll. -/
def Fs.MkdirAll (f : Fs) (path : String) (perm : Nat) : GoOutcome Unit :=
  .panicked ("implement me")

/-- Translation of Fs.Remove. -/
def Fs.Remove (f : Fs) (name : String) : GoOutcome Unit :=
  .panicked ("implement me")

/-- Translation of Fs.RemoveAll. -/
def Fs.RemoveAll (f : Fs) (path : String) : GoOutcome Unit :=
  .panicked ("implement me")

/-- Translation of Fs.Rename. -/
def Fs.Rename (f : Fs) (oldname newname : String) : GoOutcome Unit :=
  .panicked ("implement me")

/-- Translation of Fs.Chmod. -/
def Fs.Chmod (f : Fs) (name : String) (mode : Nat) : GoOutcome Unit :=
  .panicked ("implement me")

/-- Translation of Fs.Chown. -/
def Fs.Chown (f : Fs) (name : String) (uid gid : Int) : GoOutcome Unit :=
  .panicked ("implement me")

/-- Translation of Fs.Chtimes. -/
def Fs.Chtimes (f : Fs) (name : String) (atime mtime : Int) : GoOutcome Unit :=
  .panicked ("implement me")

/-- C7 (amended): every write-shaped operation on the volume and on file
handles aborts with panic("implement me") for every input: none of them
silently succeeds, and none returns the not-supported error (or any other
error). -/
theorem writeOps_panic :
    (∀ (f : File) (p : Option (List Nat)) (off size : Int) (s : String),
      File.Write f p = .panicked ("implement me") ∧
      File.WriteAt f p off = .panicked ("implement me") ∧
      File.WriteString f s = .panicked ("implement me") ∧
      File.Sync f = .panicked ("implement me") ∧
      File.Truncate f size = .panicked ("implement me")) ∧
    (∀ (fsys : Fs) (name oldname newname path : String) (perm mode : Nat)
        (uid gid atime mtime : Int),
      Fs.Create fsys name = .panicked ("implement me") ∧
      Fs.Mkdir fsys name perm = .panicked ("implement me") ∧
      Fs.MkdirAll fsys path perm = .panicked ("implement me") ∧
      Fs.Remove fsys name = .panicked ("implement me") ∧
      Fs.RemoveAll fsys path = .panicked ("implement me") ∧
      Fs.Rename fsys oldname newname = .panicked ("implement me") ∧
      Fs.Chmod fsys name mode = .panicked ("implement me") ∧
      Fs.Chown fsys name uid gid = .panicked ("implement me") ∧
      Fs.Chtimes fsys name atime mtime = .panicked ("implement me")) :=
  ⟨fun _ _ _ _ _ => ⟨rfl, rfl, rfl, rfl, rfl⟩,
   fun _ _ _ _ _ _ _ _ _ _ _ => ⟨rfl, rfl, rfl, rfl, rfl, rfl, rfl, rfl, rfl⟩⟩

/-- Counterexample for C7 as stated: File.Write at a concrete handle and
buffer aborts with panic("implement me"); in particular it does not return
the not-supported error the claim requires. -/
theorem File.Write_panics_counterexample :
    File.Write file0 (some [0]) = GoOutcome.panicked ("implement me") ∧
      File.Write file0 (some [0]) ≠
        GoOutcome.ok 0 (some GoErr.errNotSupported) :=
  ⟨rfl, by decide⟩

/-!
Translation of Fs.Open and the path handling it relies on.  The volume
behind Open is abstracted by the same fatFileFs capability set the file
layer uses (readRoot for the root listing, readDir for subdirectories), so
Open's own control flow - path validation, root handling, segment walk -
is translated exactly.
-/

/-- The element scan of Go's io/fs.ValidPath (standard library): split on
single slashes and reject an empty, dot or dot-dot element; a path that
ends cleanly after its last element is valid.  The fuel is one more than
the character count at the top call, which the scan can never exhaust. -/
def validPathElems : Nat → List Char → Bool
  | 0, _ => false
  | fuel + 1, cs =>
    let elem := cs.takeWhile (fun c => c ≠ '/')
    if elem = [] ∨ elem = ['.'] ∨ elem = ['.', '.'] then false
    else
      match cs.dropWhile (fun c => c ≠ '/') with
      | [] => true
      | _ :: rest => validPathElems fuel rest

/-- Model of Go's io/fs.ValidPath, which Fs.Open consults first: "." names
the root and is valid; otherwise every slash-separated element must be a
non-empty name other than "." and "..".  In particular the empty string
and "/" are invalid.  (The utf8.ValidString precheck of the Go original is
vacuous here because a Lean String is always valid Unicode.) -/
def validPath (name : String) : Bool :=
  if name = "." then true
  else validPathElems (name.data.length + 1) name.data

/-- Model of filepath.ToSlash: it replaces the host separator with a
slash, and on a Unix host the separator already is the slash, so it is the
identity. -/
def toSlash (path : String) : String := path

/-- strings.TrimSuffix(s, suffix): drop the suffix once when present. -/
def trimSuffix (s suffix : String) : String :=
  if s.endsWith suffix then s.dropRight suffix.length else s

/-- strings.Trim(s, " "): drop spaces from both ends. -/
def trimSpaces (s : String) : String :=
  String.mk (((s.data.dropWhile (fun c => c = ' ')).reverse.dropWhile
    (fun c => c = ' ')).reverse)

/-- strings.ToUpper; Lean's Char.toUpper matches the Go mapping on ASCII,
which covers the 8.3 names the source compares. -/
def goToUpper (s : String) : String := s.toUpper

/-- The synthetic root entry Fs.Open fabricates for the volume root: a
blank 11-space name with only the directory attribute set. -/
def fakeRootEntry : ExtendedEntryHeader :=
  { toEntryHeader := { zeroEntryHeader with Attribute := AttrDirectory }
    ExtendedName := "" }

/-- The fake root handle Fs.Open returns for the root path: empty path,
directory flag set, all remaining fields zero values. -/
def rootFile (o : FatFileFs) : File where
  fs := o
  path := ""
  isDirectory := true
  isReadOnly := false
  isHidden := false
  isSystem := false
  firstCluster := 0
  stat := fakeRootEntry.FileInfo
  offset := 0

/-- The pathLoop of Fs.Open: walk the slash-separated parts, skipping
empty parts, matching each part case-insensitively against the
space-trimmed entry names of the current listing; the last part yields the
file handle, an intermediate part must be a directory and replaces the
listing by that directory's.  The fuel counts the remaining parts
(dirParts.length at the top call), so fuel 0 is exactly the loop running
past the last part, which Go answers with the path-does-not-exist error. -/
def openLoop (o : FatFileFs) (path : String) (dirParts : List String) :
    Nat → Nat → List ExtendedEntryHeader → Except GoErr File
  | 0, _, _ =>
    .error (.wrap .errOpenFilesystem (.other ("path does not exist: " ++ path)))
  | fuel + 1, i, content =>
    let pathPart := dirParts.getD i ""
    if pathPart = "" then openLoop o path dirParts fuel (i + 1) content
    else
      match content.find? (fun entry =>
          goToUpper (trimSpaces entry.FileInfo.Name) = goToUpper pathPart) with
      | some entry =>
        if i = dirParts.length - 1 then
          .ok { fs := o
                path := path
                isDirectory := entry.FileInfo.IsDir
                isReadOnly :=
                  decide (entry.Attribute &&& AttrReadOnly = AttrReadOnly)
                isHidden := decide (entry.Attribute &&& AttrHidden = AttrHidden)
                isSystem := decide (entry.Attribute &&& AttrSystem = AttrSystem)
                firstCluster :=
                  entry.FirstClusterHI <<< 16 ||| entry.FirstClusterLO
                stat := entry.FileInfo
                offset := 0 }
        else if entry.FileInfo.IsDir = false then
          .error (GoErr.enotdir.cpWrap .errOpenFilesystem)
        else
          match o.readDirO
              (entry.FirstClusterHI <<< 16 ||| entry.FirstClusterLO) with
          | .error e => .error (e.cpWrap .errOpenFilesystem)
          | .ok content2 => openLoop o path dirParts fuel (i + 1) content2
      | none =>
        .error (.wrap .errOpenFilesystem
          (.other ("no matching path found: ***/" ++ pathPart ++ "/***")))

/-- Translation of Fs.Open: reject paths that io/fs.ValidPath refuses,
treat "." (canonicalized to the empty string) as the synthetic root
handle, and walk any other path through the directory listings starting at
the root. -/
def Fs.Open (o : FatFileFs) (path : String) : Except GoErr File :=
  if ¬ validPath path then
    .error (GoErr.errInvalidPath.cpWrap .errOpenFilesystem)
  else
    let path1 := toSlash path
    let path2 := if path1 = "." then "" else path1
    if path2 = "" then .ok (rootFile o)
    else
      let path3 := trimSuffix path2 "/"
      let dirParts := path3.splitOn "/"
      match o.readRootO with
      | .error e => .error (e.cpWrap .errOpenFilesystem)
      | .ok content => openLoop o path3 dirParts dirParts.length 0 content

/-- C5 (amended): Open treats "." as the volume root, returning the
synthetic directory handle (directory flag set); the empty string and the
path "/" are both rejected as invalid paths. -/
theorem Fs.Open_rootPaths (o : FatFileFs) :
    Fs.Open o "." = .ok (rootFile o) ∧
    (rootFile o).isDirectory = true ∧
    Fs.Open o "" =
      .error (GoErr.errInvalidPath.cpWrap GoErr.errOpenFilesystem) ∧
    Fs.Open o "/" =
      .error (GoErr.errInvalidPath.cpWrap GoErr.errOpenFilesystem) :=
  ⟨rfl, rfl, rfl, rfl⟩

/-- A concrete empty volume oracle. -/
def oracle0 : FatFileFs :=
  ⟨fun _ _ _ _ => ([], none), .ok [], fun _ => .ok []⟩

/-- Counterexample for C5 as stated: Open of the empty string on the
concrete volume oracle0 returns the invalid-path error instead of the
root handle the claim promises. -/
theorem Fs.Open_emptyPath_counterexample :
    Fs.Open oracle0 "" =
      .error (GoErr.errInvalidPath.cpWrap GoErr.errOpenFilesystem) :=
  rfl
